import Mathlib

/-!
# Verification of the cannibal_ai ingestion-and-processing pipeline

Shallow embedding of the `cannibal_core` Python package (processor, deduplicator,
style profiler, brain, database model) together with theorems settling the
claims of the specification against the code.

Conventions:
* Python `str` is modelled as Lean `String` / `List Char` (code-point based,
  matching Python indexing and slicing).
* Python `float` quantities that the claims reason about (similarities,
  distances, thresholds, means, ratios) are modelled as `ℚ`.
* Fallible Python code is modelled with `Except` / `Option`.
-/

namespace Cannibal

/-! ## Python string primitives

Helpers mirroring the Python string operations used by the source
(`str.strip`, `str.splitlines`, `str.find`, `str.split`, `str.lower`,
regex word extraction).  They operate on `List Char`, i.e. on code points,
exactly as Python string indexing does. -/

/-- Python whitespace for `str.strip` / `\s`: space, tab, newline, carriage
return, vertical tab, form feed.  (Python additionally treats a handful of
rare Unicode spaces as whitespace; none of the claims involve them.) -/
def pyIsSpace (c : Char) : Bool :=
  c = ' ' || c = '\t' || c = '\n' || c = '\r' || c = '\x0b' || c = '\x0c'

/-- `str.strip()`: drop leading and trailing whitespace. -/
def pyStrip (s : List Char) : List Char :=
  ((s.dropWhile pyIsSpace).reverse.dropWhile pyIsSpace).reverse

/-- Auxiliary for `str.splitlines`: split on `\n`, `\r\n` and `\r`
(the line boundaries relevant to the texts handled by the source). -/
def splitlinesAux : List Char → List Char → List (List Char)
  | [], acc => if acc.isEmpty then [] else [acc.reverse]
  | '\r' :: '\n' :: rest, acc => acc.reverse :: splitlinesAux rest []
  | '\r' :: rest, acc => acc.reverse :: splitlinesAux rest []
  | '\n' :: rest, acc => acc.reverse :: splitlinesAux rest []
  | c :: rest, acc => splitlinesAux rest (c :: acc)

/-- `str.splitlines()`. -/
def pySplitlines (s : List Char) : List (List Char) :=
  splitlinesAux s []

/-- `str.find(c)`: index of the first occurrence of `c`, `-1` if absent. -/
def pyFind (s : List Char) (c : Char) : Int :=
  match s.findIdx? (· = c) with
  | some i => (i : Int)
  | none => -1

/-- Auxiliary for `str.split()` (split on whitespace runs, dropping empties). -/
def pySplitAux : List Char → List Char → List (List Char)
  | [], acc => if acc.isEmpty then [] else [acc.reverse]
  | c :: rest, acc =>
    if pyIsSpace c then
      if acc.isEmpty then pySplitAux rest [] else acc.reverse :: pySplitAux rest []
    else pySplitAux rest (c :: acc)

/-- `str.split()` with no separator: whitespace runs, empties discarded. -/
def pySplit (s : List Char) : List (List Char) :=
  pySplitAux s []

/-- Character class of the word regex `[A-Za-zА-Яа-яЁё0-9']` used by
`style_profile._words` (`А`–`я` is the contiguous block U+0410–U+044F). -/
def isWordChar (c : Char) : Bool :=
  ('A' ≤ c && c ≤ 'Z') || ('a' ≤ c && c ≤ 'z') ||
  ('А' ≤ c && c ≤ 'я') || c = 'Ё' || c = 'ё' ||
  ('0' ≤ c && c ≤ '9') || c = '\''

/-- Auxiliary for `_words`: maximal runs of word characters. -/
def wordsAux : List Char → List Char → List (List Char)
  | [], acc => if acc.isEmpty then [] else [acc.reverse]
  | c :: rest, acc =>
    if isWordChar c then wordsAux rest (c :: acc)
    else if acc.isEmpty then wordsAux rest [] else acc.reverse :: wordsAux rest []

/-- `style_profile._words`: `re.findall(r"[A-Za-zА-Яа-яЁё0-9']+", text)`. -/
def pyWords (s : List Char) : List (List Char) :=
  wordsAux s []

/-- Python `str.lower`, restricted to the code points the source can
meaningfully distinguish: ASCII `A`–`Z`, Cyrillic `А`–`Я` (U+0410–U+042F,
lowercased by +0x20) and `Ё` (U+0401 → `ё` U+0451).  On every other code
point Unicode lowercasing never lands in the ranges the source tests
(`а`–`я`, `a`–`z`), so identity is equivalent there. -/
def pyLower (c : Char) : Char :=
  if 'A' ≤ c ∧ c ≤ 'Z' then Char.ofNat (c.toNat + 32)
  else if 'А' ≤ c ∧ c ≤ 'Я' then Char.ofNat (c.toNat + 32)
  else if c = 'Ё' then 'ё'
  else c

/-- Lowercase every character of a string (Python `str.lower()`). -/
def pyLowerStr (s : List Char) : List Char :=
  s.map pyLower

end Cannibal

namespace Cannibal.BrainM

/-!  ## `brain.py` — language selection for the rewriter

`Brain._is_cyrillic` scans the text for a character whose lowercase form
lies between `'а'` and `'я'`; `Brain.generate` picks the Russian style
examples when it finds one, the English ones otherwise, and forwards
text, examples and the optional style profile to `LLMClient.rewrite`. -/

/-- `Brain._is_cyrillic`: true iff some character of the text
lowercases into the range `'а'..'я'`. -/
def isCyrillic (text : List Char) : Bool :=
  text.any fun ch =>
    let chLower := pyLower ch
    'а' ≤ chLower && chLower ≤ 'я'

/-- The generic style-example lists of `Settings` (`config.py`):
only their identity matters to the claims, so they are kept abstract. -/
structure StyleSettings where
  styleExamplesRu : List String
  styleExamplesEn : List String

/-- `Brain.generate`, with `LLMClient.rewrite` abstracted as an oracle:
the rewrite backend receives the text, the selected example list and the
optional style profile. -/
def generate (rewrite : List Char → List String → Option String → String)
    (settings : StyleSettings) (text : List Char)
    (styleProfile : Option String) : String :=
  let examples :=
    if isCyrillic text then settings.styleExamplesRu else settings.styleExamplesEn
  rewrite text examples styleProfile

end Cannibal.BrainM

namespace Cannibal.Dedup

/-! ## `deduplicator.py` / `vector_store.py` — the dedup decision

`VectorStore.query_similar` returns the similarity index's raw result
dictionary; on any exception in the query it returns
`{"distances": [[]], "ids": [[]]}`.  `Deduplicator.check` reads
`result.get("distances", [[]])` / `result.get("ids", [[]])`, takes the
index's native first entry without re-sorting, derives
`similarity = 1 - best_distance` and compares against the threshold. -/

/-- The raw result dictionary coming back from the similarity index, as
consumed by `Deduplicator.check`.  A field is `none` when the key is
absent from the dictionary (covered by the `.get` defaults in the code). -/
structure RawResult where
  distances : Option (List (List ℚ))
  ids : Option (List (List String))
deriving DecidableEq

/-- `VectorStore.query_similar`'s result on the failure path
(`except Exception: return {"distances": [[]], "ids": [[]]}`). -/
def queryFailureResult : RawResult :=
  { distances := some [[]], ids := some [[]] }

/-- The outcome of `VectorStore.query_similar`: the index's native result
on success, the empty-shaped dictionary when the query call raised. -/
def querySimilar (failed : Bool) (native : RawResult) : RawResult :=
  if failed then queryFailureResult else native

/-- `deduplicator.DedupResult`. -/
structure DedupResult where
  isDuplicate : Bool
  similarity : Option ℚ
  matchedId : Option String
  embedding : List ℚ
deriving DecidableEq

/-- `Deduplicator.check`, given the embedding computed for the text and the
raw result of the 24-hour-window index query. -/
def check (threshold : ℚ) (embedding : List ℚ) (result : RawResult) :
    DedupResult :=
  let distances := result.distances.getD [[]]
  let ids := result.ids.getD [[]]
  let best :=
    match distances with
    | [] => none
    | firstD :: _ =>
      match firstD with
      | [] => none
      | bestDistance :: _ =>
        let matched :=
          match ids with
          | [] => none
          | firstI :: _ =>
            match firstI with
            | [] => none
            | i :: _ => some i
        some (1 - bestDistance, matched)
  match best with
  | none =>
    { isDuplicate := false, similarity := none, matchedId := none,
      embedding := embedding }
  | some (sim, matched) =>
    { isDuplicate := decide (sim ≥ threshold), similarity := some sim,
      matchedId := matched, embedding := embedding }

/-- `config.Settings.duplicate_threshold` default (`config.py`). -/
def defaultDuplicateThreshold : ℚ := 85 / 100

end Cannibal.Dedup

namespace Cannibal.DBM

/-! ## `database.py` — the relational data model

`Channel` and `Post` as declared by the ORM model.  `Post` (database.py,
lines 32–48) maps exactly the columns `id`, `channel_id`,
`telegram_msg_id`, `text`, `created_at` and carries the uniqueness
constraint on `(channel_id, telegram_msg_id)`.  No outcome columns
(`rewritten_text`, `is_duplicate`, `similarity`, `duplicate_of`,
`processed_at`) are mapped on the model; `migrate.py` adds them to the
SQLite table, but the ORM class itself does not declare them, so instance
attribute access and persistence follow plain-Python semantics for
unmapped names. -/

/-- A row of the `channels` table. -/
structure ChannelRow where
  id : Nat
  name : String
  telegramId : Option Int
  createdAt : Nat
deriving DecidableEq

/-- A row of the `posts` table: exactly the columns mapped by the ORM
`Post` class. -/
structure PostRow where
  id : Nat
  channelId : Nat
  telegramMsgId : Int
  text : String
  createdAt : Nat
deriving DecidableEq

/-- The relational store. `nextChannelId`/`nextPostId` model the
autoincrement primary keys. -/
structure DB where
  channels : List ChannelRow
  posts : List PostRow
  nextChannelId : Nat
  nextPostId : Nat
deriving DecidableEq

/-- A dynamically-typed Python attribute value, as set by
`Processor._update_post`'s `setattr` calls. -/
inductive PyVal where
  | vNone
  | vStr (s : String)
  | vBool (b : Bool)
  | vRat (q : ℚ)
  | vNat (n : Nat)
  | vInt (i : Int)
deriving DecidableEq

/-- The column names mapped on the ORM `Post` class (database.py). -/
def postMappedColumns : List String :=
  ["id", "channel_id", "telegram_msg_id", "text", "created_at"]

/-- Assigning a mapped column of a `Post` row (the effect a `setattr` on a
mapped attribute has once the session flushes). -/
def setMappedPostAttr (row : PostRow) (key : String) (v : PyVal) : PostRow :=
  match key, v with
  | "id", .vNat n => { row with id := n }
  | "channel_id", .vNat n => { row with channelId := n }
  | "telegram_msg_id", .vInt i => { row with telegramMsgId := i }
  | "text", .vStr s => { row with text := s }
  | "created_at", .vNat n => { row with createdAt := n }
  | _, _ => row

/-- An ORM `Post` instance: the mapped row plus any plain (unmapped)
instance attributes assigned with `setattr`.  Instances loaded from the
database start with no unmapped attributes. -/
structure PostObj where
  row : PostRow
  extra : List (String × PyVal)
deriving DecidableEq

/-- Python attribute read on a `Post` instance: mapped columns first, then
plain instance attributes; `none` models the `AttributeError` raised when
the name is neither. -/
def pyGetattrPost (obj : PostObj) (key : String) : Option PyVal :=
  if key = "id" then some (.vNat obj.row.id)
  else if key = "channel_id" then some (.vNat obj.row.channelId)
  else if key = "telegram_msg_id" then some (.vInt obj.row.telegramMsgId)
  else if key = "text" then some (.vStr obj.row.text)
  else if key = "created_at" then some (.vNat obj.row.createdAt)
  else (obj.extra.lookup key)

/-- Applying `Processor._update_post`'s `setattr` loop to a freshly loaded
instance: assignments to mapped columns change the row (and are persisted
by the following `commit`); assignments to unmapped names only create
plain instance attributes, which die with the session. -/
def applyUpdateFields (row : PostRow) (fields : List (String × PyVal)) :
    PostRow × List (String × PyVal) :=
  fields.foldl
    (fun acc kv =>
      if postMappedColumns.contains kv.1 then
        (setMappedPostAttr acc.1 kv.1 kv.2, acc.2)
      else (acc.1, acc.2 ++ [kv]))
    (row, [])

/-- `Processor._update_post`: load the post by id (warn and return when
missing), `setattr` every field, commit.  Only mapped-column assignments
survive the commit. -/
def updatePost (db : DB) (postId : Nat) (fields : List (String × PyVal)) :
    DB :=
  match db.posts.find? (fun p => decide (p.id = postId)) with
  | none => db
  | some _ =>
    { db with
      posts := db.posts.map fun p =>
        if p.id = postId then (applyUpdateFields p fields).1 else p }

/-- `Processor._get_or_create_channel`: look the channel up by numeric id
when one is given, else by name; create (flush, assigning the next id)
when absent. -/
def getOrCreateChannel (db : DB) (channelName : String)
    (channelId : Option Int) (now : Nat) : ChannelRow × DB :=
  let found :=
    match channelId with
    | some tid => db.channels.find? (fun c => decide (c.telegramId = some tid))
    | none => db.channels.find? (fun c => decide (c.name = channelName))
  match found with
  | some c => (c, db)
  | none =>
    let c : ChannelRow :=
      { id := db.nextChannelId, name := channelName,
        telegramId := channelId, createdAt := now }
    (c, { db with channels := db.channels ++ [c],
                  nextChannelId := db.nextChannelId + 1 })

/-- `Processor._store_raw_post`: resolve the channel, try to insert the
post, and on the `(channel_id, telegram_msg_id)` uniqueness violation roll
the transaction back and fetch the existing row, returning it with
`created = false`. -/
def storeRawPost (db : DB) (channelName : String) (channelId : Option Int)
    (messageId : Int) (text : String) (now : Nat) : PostObj × Bool × DB :=
  let resolved := getOrCreateChannel db channelName channelId now
  let channelDbId := resolved.1.id
  match resolved.2.posts.find?
      (fun p => decide (p.channelId = channelDbId ∧ p.telegramMsgId = messageId)) with
  | some existing =>
    -- IntegrityError: the commit fails, the whole transaction (any channel
    -- flushed in this session included) is rolled back, and the existing
    -- row is fetched from the store.
    ({ row := existing, extra := [] }, false, db)
  | none =>
    let post : PostRow :=
      { id := resolved.2.nextPostId, channelId := channelDbId,
        telegramMsgId := messageId, text := text, createdAt := now }
    ({ row := post, extra := [] }, true,
     { resolved.2 with posts := resolved.2.posts ++ [post],
                       nextPostId := resolved.2.nextPostId + 1 })

end Cannibal.DBM

namespace Cannibal.Proc

open Cannibal.DBM Cannibal.Dedup

/-! ## `processor.py` — the per-event workflow

`Processor.handle_message` truncates the text, runs the store-or-fetch
step, reads `post.processed_at` on the fetched-existing path, runs
`Deduplicator.check`, and either records the duplicate outcome or does
the index upsert / style lookup / rewrite / output write / outcome
update.  External effects are modelled by explicit state (similarity
index contents, output sink, call counters) and the external services by
oracles. -/

/-- A document upserted into the similarity index
(`VectorStore.add` payload plus the metadata built by the workflow). -/
structure VecDoc where
  docId : String
  embedding : List ℚ
  document : String
  channel : String
  messageId : Int
  createdAt : Nat
deriving DecidableEq

/-- One record appended to the output sink by `Processor._write_output`. -/
structure OutputRecord where
  timestamp : Nat
  channelName : String
  messageId : Int
  text : String
deriving DecidableEq

/-- The observable state the workflow acts on: the relational store, the
similarity index, the output sink, and counters of the external calls the
claims quantify (dedup checks, index upserts, rewrite calls, output
writes). -/
structure ProcState where
  db : DB
  vecDocs : List VecDoc
  output : List OutputRecord
  dedupCalls : Nat
  vecAddCalls : Nat
  rewriteCalls : Nat
  outputWrites : Nat
deriving DecidableEq

/-- A Python exception escaping `handle_message`. -/
inductive PyErr where
  | attributeError (name : String)
deriving DecidableEq

/-- The external collaborators of the workflow: the deduplicator outcome
per text, the rewriter outcome per (text, style profile), and the optional
style-profile lookup (`None` when the processor was built without one). -/
structure Oracles where
  dedupOf : String → DedupResult
  brainOf : String → Option String → String
  profileLookup : Option (Option Int → String → Option String)

/-- The settings `handle_message` reads (`config.py`). -/
structure ProcSettings where
  maxChars : Nat

/-- `doc_id = f"{channel_id or channel_name}:{message_id}"` — note
Python's `or`: a `None` (or zero) channel id falls back to the name. -/
def docIdOf (channelId : Option Int) (channelName : String)
    (messageId : Int) : String :=
  let head :=
    match channelId with
    | some i => if i = 0 then channelName else toString i
    | none => channelName
  head ++ ":" ++ toString messageId

/-- `PyVal` image of an `Optional[float]` argument. -/
def optRatVal : Option ℚ → PyVal
  | some q => .vRat q
  | none => .vNone

/-- `PyVal` image of an `Optional[str]` argument. -/
def optStrVal : Option String → PyVal
  | some s => .vStr s
  | none => .vNone

/-- The tail of `handle_message` past the already-processed check: dedup
check, then either the duplicate outcome update, or index upsert, style
lookup, rewrite, output write and outcome update. -/
def handleUnprocessed (o : Oracles) (now : Nat) (channelName : String)
    (channelId : Option Int) (messageId : Int) (text : String)
    (postObj : PostObj) (s : ProcState) : Except PyErr Unit × ProcState :=
  let dedup := o.dedupOf text
  let s := { s with dedupCalls := s.dedupCalls + 1 }
  if dedup.isDuplicate then
    let fields : List (String × PyVal) :=
      [("is_duplicate", .vBool true),
       ("similarity", optRatVal dedup.similarity),
       ("duplicate_of", optStrVal dedup.matchedId),
       ("processed_at", .vNat now)]
    let s := { s with db := updatePost s.db postObj.row.id fields }
    (.ok (), s)
  else
    let docId := docIdOf channelId channelName messageId
    let doc : VecDoc :=
      { docId := docId, embedding := dedup.embedding, document := text,
        channel := channelName, messageId := messageId, createdAt := now }
    let s := { s with
      vecDocs := s.vecDocs ++ [doc],
      vecAddCalls := s.vecAddCalls + 1 }
    let styleProfile :=
      match o.profileLookup with
      | some get => get channelId channelName
      | none => none
    let rewritten := o.brainOf text styleProfile
    let s := { s with rewriteCalls := s.rewriteCalls + 1 }
    let rec_ : OutputRecord :=
      { timestamp := now, channelName := channelName,
        messageId := messageId, text := rewritten }
    let s := { s with
      output := s.output ++ [rec_],
      outputWrites := s.outputWrites + 1 }
    let fields : List (String × PyVal) :=
      [("rewritten_text", .vStr rewritten),
       ("is_duplicate", .vBool false),
       ("similarity", optRatVal dedup.similarity),
       ("duplicate_of", optStrVal dedup.matchedId),
       ("processed_at", .vNat now)]
    let s := { s with db := updatePost s.db postObj.row.id fields }
    (.ok (), s)

/-- `Processor.handle_message`.  On the fetched-existing path the code
evaluates `post.processed_at`; an attribute the instance does not carry
raises `AttributeError`, which escapes `handle_message`. -/
def handleMessage (cfg : ProcSettings) (o : Oracles) (now : Nat)
    (s : ProcState) (channelName : String) (channelId : Option Int)
    (messageId : Int) (text : String) : Except PyErr Unit × ProcState :=
  let text := (text.toList.take cfg.maxChars).asString
  let stored := storeRawPost s.db channelName channelId messageId text now
  let postObj := stored.1
  let created := stored.2.1
  let s := { s with db := stored.2.2 }
  if created then
    handleUnprocessed o now channelName channelId messageId text postObj s
  else
    match pyGetattrPost postObj "processed_at" with
    | none => (.error (.attributeError "processed_at"), s)
    | some v =>
      if v = PyVal.vNone then
        handleUnprocessed o now channelName channelId messageId text postObj s
      else
        (.ok (), s)

end Cannibal.Proc

namespace Cannibal.Style

open Cannibal.DBM

/-! ## `style_profile.py` — the per-source style profiler -/

/-- `collections.Counter` as an insertion-ordered association list:
incrementing an existing key keeps its position, a new key is appended
(Python dicts preserve insertion order). -/
def counterAdd [BEq α] (counter : List (α × Nat)) (key : α) :
    List (α × Nat) :=
  if counter.any (fun kv => kv.1 == key) then
    counter.map fun kv => if kv.1 == key then (kv.1, kv.2 + 1) else kv
  else counter ++ [(key, 1)]

/-- Counting a stream of items, in order. -/
def counterOf [BEq α] (items : List α) : List (α × Nat) :=
  items.foldl counterAdd []

/-- `Counter.most_common(n)`: the `n` highest counts, ties resolved by
first insertion (a stable descending sort, which is what
`heapq.nlargest` / `sorted(..., reverse=True)` produce). -/
def mostCommon [BEq α] (n : Nat) (counter : List (α × Nat)) : List α :=
  ((counter.mergeSort fun a b => decide (b.2 ≤ a.2)).take n).map (·.1)

/-- Sentence-final punctuation of `_split_sentences`'s regex
(`(?<=[.!?…])\s+`). -/
def sentenceEnder (c : Char) : Bool :=
  c = '.' || c = '!' || c = '?' || c = '…'

/-- Auxiliary for `_split_sentences`: split the cleaned text (single
spaces only) at every space preceded by sentence-final punctuation. -/
def splitSentencesAux : List Char → List Char → List (List Char)
  | [], acc => [acc.reverse]
  | c :: rest, acc =>
    if c = ' ' then
      match acc with
      | p :: _ =>
        if sentenceEnder p then acc.reverse :: splitSentencesAux rest []
        else splitSentencesAux rest (c :: acc)
      | [] => splitSentencesAux rest (c :: acc)
    else splitSentencesAux rest (c :: acc)

/-- `_split_sentences`: collapse whitespace runs of the stripped text to
single spaces (`re.sub(r"\s+", " ", text.strip())` equals joining the
whitespace-separated chunks with single spaces), return `[]` when empty,
else split after sentence-final punctuation and drop empty parts. -/
def splitSentences (s : List Char) : List (List Char) :=
  let cleaned := List.intercalate [' '] (pySplit s)
  if cleaned.isEmpty then []
  else (splitSentencesAux cleaned []).filter fun part => ¬ part.isEmpty

/-- `_opening_key`: the lowercased first `numWords` words (the single
word when there are fewer), `None` when the text has no words. -/
def openingKey (s : List Char) (numWords : Nat := 2) : Option (List Char) :=
  let words := pyWords s
  match words with
  | [] => none
  | w :: _ =>
    if words.length ≥ numWords then
      some (pyLowerStr (List.intercalate [' '] (words.take numWords)))
    else some (pyLowerStr w)

/-- `_lead_label`: on the stripped first line, accept the stripped text
before the first colon when the colon index is in `1..15` and the label
is non-empty with at most 3 whitespace-separated words.  (On a
whitespace-only text the Python code would raise `IndexError` on `[0]`;
the only call site filters blank texts first, modelled as `none`.) -/
def leadLabel (s : List Char) : Option (List Char) :=
  match pySplitlines (pyStrip s) with
  | [] => none
  | l :: _ =>
    let firstLine := pyStrip l
    let colonIdx := pyFind firstLine ':'
    if 0 < colonIdx ∧ colonIdx ≤ 15 then
      let label := pyStrip (firstLine.take colonIdx.toNat)
      if ¬ label.isEmpty ∧ (pySplit label).length ≤ 3 then some label
      else none
    else none

/-- `_count_list_lines`: non-blank stripped lines starting with a list
marker (`-`, `•`, `—`). -/
def countListLines (s : List Char) : Nat :=
  let lines := ((pySplitlines s).map pyStrip).filter fun l => ¬ l.isEmpty
  lines.countP fun l =>
    match l with
    | c :: _ => c = '-' || c = '•' || c = '—'
    | [] => false

/-- The emoji code-point ranges of `_EMOJI_RE`. -/
def isEmojiChar (c : Char) : Bool :=
  (0x1F300 ≤ c.toNat && c.toNat ≤ 0x1F6FF) ||
  (0x1F700 ≤ c.toNat && c.toNat ≤ 0x1FAFF) ||
  (0x2700 ≤ c.toNat && c.toNat ≤ 0x27BF) ||
  (0x24C2 ≤ c.toNat && c.toNat ≤ 0x1F251)

/-- `_EMOJI_RE.findall` (the regex matches single characters). -/
def emojiFindall (s : List Char) : List Char :=
  s.filter isEmojiChar

/-- `_contains_emoji`. -/
def containsEmoji (s : List Char) : Bool :=
  s.any isEmojiChar

/-- `statistics.mean` over natural counts, as an exact rational. -/
def meanQ (l : List Nat) : ℚ :=
  (l.sum : ℚ) / (l.length : ℚ)

/-- Python's `round` to an integer (round half to even). -/
def pyRound (q : ℚ) : ℤ :=
  let fl := q.floor
  let frac := q - (fl : ℚ)
  if frac < 1 / 2 then fl
  else if frac > 1 / 2 then fl + 1
  else if fl % 2 = 0 then fl else fl + 1

/-- Python's `round(-, 1)` (one decimal, half to even). -/
def pyRound1 (q : ℚ) : ℚ :=
  (pyRound (10 * q) : ℚ) / 10

/-- The profile dictionary built by `build_style_profile` for a non-empty
filtered sample. -/
structure Profile where
  sampleSize : Nat
  avgChars : ℤ
  avgSentenceWords : Option ℚ
  tempo : String
  topOpenings : List (List Char)
  topLabels : List (List Char)
  colonRatio : ℚ
  dashRatio : ℚ
  newlineRatio : ℚ
  listRatio : ℚ
  emojiRatio : ℚ
  topEmojis : List Char
deriving DecidableEq

/-- The filter `[text for text in texts if text and text.strip()]`. -/
def nonBlank (t : List Char) : Bool :=
  ¬ t.isEmpty && ¬ (pyStrip t).isEmpty

/-- The word counts fed into the sentence-length mean: every non-empty
word count of every sentence of every sample. -/
def sentenceWordLengths (texts : List (List Char)) : List Nat :=
  texts.flatMap fun t =>
    (((splitSentences t).map fun sent => (pyWords sent).length).filter
      fun n => n ≠ 0)

/-- The mean words-per-sentence (`0.0` when no sentence had words). -/
def avgSentenceWordsOf (texts : List (List Char)) : ℚ :=
  let lens := sentenceWordLengths texts
  if lens.isEmpty then 0 else meanQ lens

/-- The tempo bucket from the mean words-per-sentence:
`≤ 10 → "short"`, `≤ 17 → "medium"`, else `"long"`. -/
def tempoOf (avgSentenceWords : ℚ) : String :=
  if avgSentenceWords ≤ 10 then "short"
  else if avgSentenceWords ≤ 17 then "medium"
  else "long"

/-- `build_style_profile`: `none` models the empty dictionary returned
for an all-blank sample. -/
def buildStyleProfile (texts : List (List Char)) : Option Profile :=
  let texts := texts.filter nonBlank
  if texts.isEmpty then none
  else
    let charLengths := texts.map List.length
    let avgChars := meanQ charLengths
    let avgSW := avgSentenceWordsOf texts
    let tempo := tempoOf avgSW
    let openingCounter := counterOf (texts.filterMap (openingKey · 2))
    let labelCounter := counterOf (texts.filterMap leadLabel)
    let colonPosts := texts.countP fun t => t.contains ':'
    let dashPosts := texts.countP fun t =>
      t.contains '—' || decide (List.IsInfix [' ', '-', ' '] t)
    let newlinePosts := texts.countP fun t => t.contains '\n'
    let listPosts := texts.countP fun t => decide (countListLines t > 0)
    let emojiPosts := texts.countP containsEmoji
    let emojiCounter :=
      counterOf ((texts.filter containsEmoji).flatMap emojiFindall)
    let total := texts.length
    some
      { sampleSize := total
        avgChars := pyRound avgChars
        avgSentenceWords := if avgSW = 0 then none else some (pyRound1 avgSW)
        tempo := tempo
        topOpenings := mostCommon 5 openingCounter
        topLabels := mostCommon 5 labelCounter
        colonRatio := (colonPosts : ℚ) / (total : ℚ)
        dashRatio := (dashPosts : ℚ) / (total : ℚ)
        newlineRatio := (newlinePosts : ℚ) / (total : ℚ)
        listRatio := (listPosts : ℚ) / (total : ℚ)
        emojiRatio := (emojiPosts : ℚ) / (total : ℚ)
        topEmojis := mostCommon 5 emojiCounter }

/-- `"\n".join(parts)`. -/
def joinNl : List String → String
  | [] => ""
  | [a] => a
  | a :: rest => a ++ "\n" ++ joinNl rest

/-- `format_style_profile`: the empty string for the empty profile, else
the fixed-order text block.  (Number rendering uses Lean `toString`; no
claim inspects the rendered digits.) -/
def formatStyleProfile : Option Profile → String
  | none => ""
  | some p =>
    let parts : List String :=
      ("Sample size: " ++ toString p.sampleSize ++ " posts") ::
      ("Avg length: ~" ++ toString p.avgChars ++ " chars") ::
      ((match p.avgSentenceWords with
          | some q =>
            if q ≠ 0 then
              ["Avg sentence length: ~" ++ toString q ++ " words"]
            else []
          | none => [])
      ++ ["Tempo: " ++ p.tempo ++ " sentences"]
      ++ (if ¬ p.topLabels.isEmpty then
            ["Lead labels: " ++
              String.intercalate ", " (p.topLabels.map List.asString)]
          else [])
      ++ (if ¬ p.topOpenings.isEmpty then
            ["Common openings: " ++
              String.intercalate ", " (p.topOpenings.map List.asString)]
          else [])
      ++ ["Formatting: colon in " ++ toString (p.colonRatio * 100).floor ++
          "%, dash in " ++ toString (p.dashRatio * 100).floor ++
          "%, lists in " ++ toString (p.listRatio * 100).floor ++
          "%, newlines in " ++ toString (p.newlineRatio * 100).floor ++ "%."]
      ++ (if p.emojiRatio > 0 then
            ["Emojis in " ++ toString (p.emojiRatio * 100).floor ++ "% posts" ++
              (if ¬ p.topEmojis.isEmpty then
                "; common: " ++
                  String.intercalate ", " (p.topEmojis.map fun c => String.mk [c])
              else "")]
          else []))
    joinNl parts

/-- Insert a post into a list sorted by descending `createdAt`. -/
def insertDesc (p : PostRow) : List PostRow → List PostRow
  | [] => [p]
  | q :: rest =>
    if q.createdAt < p.createdAt then p :: q :: rest
    else q :: insertDesc p rest

/-- Sort posts by descending `createdAt` (the `ORDER BY created_at DESC`
of the sample query; SQL leaves tie order unspecified). -/
def sortByCreatedDesc : List PostRow → List PostRow
  | [] => []
  | p :: rest => insertDesc p (sortByCreatedDesc rest)

/-- The per-source sample: the channel's posts, most recent first
(`order_by(Post.created_at.desc())`), truncated at `limit`. -/
def fetchRecentTexts (db : DB) (channelDbId : Nat) (limit : Nat) :
    List (List Char) :=
  ((sortByCreatedDesc
      (db.posts.filter fun p => decide (p.channelId = channelDbId))).take
    limit).map fun p => p.text.toList

/-- The loop body of `build_style_profiles` for one channel: skip when
fewer than `max(10, limit // 3)` sample posts were fetched, build and
render the profile, skip when it rendered empty. -/
def profileEntry (db : DB) (limit : Nat) (c : ChannelRow) : Option String :=
  let texts := fetchRecentTexts db c.id limit
  if texts.length < max 10 (limit / 3) then none
  else
    let formatted := formatStyleProfile (buildStyleProfile texts)
    if formatted = "" then none else some formatted

/-- `StyleProfileCache`'s two lookup dictionaries. -/
structure ProfileCache where
  byChannelId : List (Int × String)
  byChannelName : List (String × String)
deriving DecidableEq

/-- Ordered-dictionary lookup `d[key]` / `d.get(key)`. -/
def dictGet [BEq α] (d : List (α × β)) (key : α) : Option β :=
  match d with
  | [] => none
  | kv :: rest => if kv.1 == key then some kv.2 else dictGet rest key

/-- Ordered-dictionary assignment `d[key] = v`. -/
def dictInsert [BEq α] (d : List (α × β)) (key : α) (v : β) :
    List (α × β) :=
  if d.any (fun kv => kv.1 == key) then
    d.map fun kv => if kv.1 == key then (key, v) else kv
  else d ++ [(key, v)]

/-- One iteration of the `build_style_profiles` loop: skip the channel
when `profileEntry` skipped it, otherwise store the rendered profile
under the telegram id (when present) and under the name. -/
def profileStep (db : DB) (limit : Nat) (acc : ProfileCache)
    (c : ChannelRow) : ProfileCache :=
  match profileEntry db limit c with
  | none => acc
  | some formatted =>
    let byId :=
      match c.telegramId with
      | some tid => dictInsert acc.byChannelId tid formatted
      | none => acc.byChannelId
    { byChannelId := byId,
      byChannelName := dictInsert acc.byChannelName c.name formatted }

/-- `build_style_profiles`: iterate the (optionally name-filtered)
channels, computing each channel's entry and storing it under the
numeric id (when present) and the name. -/
def buildStyleProfiles (db : DB) (limit : Nat)
    (channelNames : Option (List String)) : ProfileCache :=
  let channels :=
    match channelNames with
    | some names =>
      if names.isEmpty then db.channels
      else db.channels.filter fun c => names.contains c.name
    | none => db.channels
  channels.foldl (profileStep db limit)
    { byChannelId := [], byChannelName := [] }

end Cannibal.Style

namespace Cannibal.Fixtures

open Cannibal.DBM Cannibal.Proc Cannibal.Dedup Cannibal.Style

/-! ## Concrete scenarios

The inputs of the repository's own test-suite scenarios
(`tests/test_processor.py`) and the concrete stores used to evaluate the
workflow and the profiler at specific inputs. -/

/-- A processor over an empty store, empty index and empty output sink. -/
def emptyProcState : ProcState :=
  { db := { channels := [], posts := [], nextChannelId := 1, nextPostId := 1 },
    vecDocs := [], output := [], dedupCalls := 0, vecAddCalls := 0,
    rewriteCalls := 0, outputWrites := 0 }

/-- The test settings (`max_chars` keeps its default 8000). -/
def testSettings : ProcSettings := { maxChars := 8000 }

/-- The fake collaborators of the unique-post tests: dedup reports
not-duplicate with similarity 0.5, the rewriter returns `"rewritten"`,
no style profiles. -/
def uniqueOracles : Oracles :=
  { dedupOf := fun _ =>
      { isDuplicate := false, similarity := some (1 / 2), matchedId := none,
        embedding := [1 / 10, 2 / 10] },
    brainOf := fun _ _ => "rewritten",
    profileLookup := none }

/-- The fake collaborators of the duplicate-post test: dedup reports
duplicate with similarity 0.95 matched to `"doc-1"`. -/
def dupOracles : Oracles :=
  { dedupOf := fun _ =>
      { isDuplicate := true, similarity := some (19 / 20),
        matchedId := some "doc-1", embedding := [1 / 10, 2 / 10] },
    brainOf := fun _ _ => "rewritten",
    profileLookup := none }

/-- First delivery of `(channel, 123, 9, "hello world")`
(the `test_processor_skips_already_processed` scenario). -/
def c1run1 : Except PyErr Unit × ProcState :=
  handleMessage testSettings uniqueOracles 1000 emptyProcState
    "channel" (some 123) 9 "hello world"

/-- Redelivery of the identical event. -/
def c1run2 : Except PyErr Unit × ProcState :=
  handleMessage testSettings uniqueOracles 1001 c1run1.2
    "channel" (some 123) 9 "hello world"

/-- The duplicate-event delivery
(the `test_processor_duplicate_marks_db_and_skips_output` scenario). -/
def c2run : Except PyErr Unit × ProcState :=
  handleMessage testSettings dupOracles 1000 emptyProcState
    "channel" (some 123) 8 "hello world"

/-- The unique-event delivery
(the `test_processor_unique_writes_output_and_updates_db` scenario). -/
def c3run : Except PyErr Unit × ProcState :=
  handleMessage testSettings uniqueOracles 1000 emptyProcState
    "channel" (some 123) 7 "hello world"

/-- A sample text with a lead label (`test_style_profile` uses the same
shape). -/
def c9text : List Char := "Факт: Рынок вырос.".toList

/-- A default profile record (used only as the `getD` fallback below). -/
def defaultProf : Cannibal.Style.Profile :=
  { sampleSize := 0, avgChars := 0, avgSentenceWords := none, tempo := "",
    topOpenings := [], topLabels := [], colonRatio := 0, dashRatio := 0,
    newlineRatio := 0, listRatio := 0, emojiRatio := 0, topEmojis := [] }

/-- The profile built from the single sample `c9text`. -/
def c9prof : Cannibal.Style.Profile :=
  (Cannibal.Style.buildStyleProfile [c9text]).getD defaultProf

/-- A store whose single channel has exactly ten posts — the style-profile
threshold boundary for `limit = 30` (`max(10, 30 // 3) = 10`) — one of
which is whitespace-only. -/
def c7db : DB :=
  { channels := [ChannelRow.mk 1 "chan" (some 5) 0],
    posts :=
      ((List.range 9).map fun i =>
        PostRow.mk (i + 1) 1 (Int.ofNat (i + 1))
          "Факт: Рынок вырос." (i + 1)) ++
      [PostRow.mk 10 1 10 "   " 10],
    nextChannelId := 2, nextPostId := 11 }

/-- A store already holding channel `chan` (telegram id 5) and its post
with message id 7 — the conflict scenario for store-or-fetch. -/
def conflictDb : DB :=
  { channels := [ChannelRow.mk 1 "chan" (some 5) 0],
    posts := [PostRow.mk 1 1 7 "hi" 10],
    nextChannelId := 2, nextPostId := 2 }

end Cannibal.Fixtures

namespace Cannibal

open Cannibal.DBM Cannibal.Proc Cannibal.Dedup Cannibal.Style Cannibal.Fixtures

/-! ## Theorems settling the claims -/

/-- Claim C1 (code bug).  The claim states that a second invocation of
`handle_message` on the same `(source, messageId)` is a clean no-op that
stops after the store-or-fetch step because the record's `processedAt`
field is set.  On the code, redelivering an identical event keeps the
counts the claim demands (one stored record, one dedup check, one
rewrite, one output write) only because the second invocation crashes:
the ORM `Post` model maps no `processed_at` column, so the first run's
outcome update persists nothing, the stored record never exposes a
`processed_at` value, and the redelivery raises `AttributeError` when it
evaluates `post.processed_at` — instead of the claimed clean stop. -/
theorem c1_idempotency_processed_at_bug :
    c1run1.1 = .ok ()
    ∧ c1run2.1 = .error (.attributeError "processed_at")
    ∧ c1run2.2.dedupCalls = 1
    ∧ c1run2.2.rewriteCalls = 1
    ∧ c1run2.2.outputWrites = 1
    ∧ c1run2.2.db.posts.length = 1
    ∧ (∀ p ∈ c1run2.2.db.posts,
        pyGetattrPost { row := p, extra := [] } "processed_at" = none) := by
  refine ⟨rfl, rfl, rfl, rfl, rfl, rfl, ?_⟩
  decide

/-- Claim C2 (code bug).  For a duplicate event the workflow does stop —
no index upsert, no rewrite, no output write — but the claimed record
update does not happen: `duplicate`, `similarity`, `matchedId` and
`processedAt` are not mapped columns of `Post`, so
`_update_post`'s `setattr` writes die with the session and the stored row
is exactly the raw insert (its own test asserts
`post.is_duplicate is True` after a fresh fetch, which fails). -/
theorem c2_duplicate_suppression_update_bug :
    c2run.1 = .ok ()
    ∧ c2run.2.dedupCalls = 1
    ∧ c2run.2.vecAddCalls = 0
    ∧ c2run.2.rewriteCalls = 0
    ∧ c2run.2.outputWrites = 0
    ∧ c2run.2.vecDocs = []
    ∧ c2run.2.output = []
    ∧ c2run.2.db.posts =
        [{ id := 1, channelId := 1, telegramMsgId := 8, text := "hello world",
           createdAt := 1000 }]
    ∧ (∀ p ∈ c2run.2.db.posts,
        pyGetattrPost { row := p, extra := [] } "is_duplicate" = none
        ∧ pyGetattrPost { row := p, extra := [] } "similarity" = none
        ∧ pyGetattrPost { row := p, extra := [] } "duplicate_of" = none
        ∧ pyGetattrPost { row := p, extra := [] } "processed_at" = none) := by
  refine ⟨rfl, rfl, rfl, rfl, rfl, rfl, rfl, by decide, ?_⟩
  decide

/-- Claim C3 (code bug).  For a unique event exactly one index upsert,
one rewrite call and one output write occur, and the output sink holds
the rewrite output — but the stored record's `rewrittenText` does not
equal the rewrite output: `Post` maps no `rewritten_text` column, so the
outcome update persists nothing and the stored row still carries only the
raw columns (its own test asserts `post.rewritten_text == "rewritten"`
after a fresh fetch, which fails). -/
theorem c3_unique_passthrough_rewritten_text_bug :
    c3run.1 = .ok ()
    ∧ c3run.2.dedupCalls = 1
    ∧ c3run.2.vecAddCalls = 1
    ∧ c3run.2.rewriteCalls = 1
    ∧ c3run.2.outputWrites = 1
    ∧ c3run.2.vecDocs =
        [{ docId := "123:7", embedding := [1 / 10, 2 / 10],
           document := "hello world", channel := "channel", messageId := 7,
           createdAt := 1000 }]
    ∧ c3run.2.output =
        [{ timestamp := 1000, channelName := "channel", messageId := 7,
           text := "rewritten" }]
    ∧ c3run.2.db.posts =
        [{ id := 1, channelId := 1, telegramMsgId := 7, text := "hello world",
           createdAt := 1000 }]
    ∧ (∀ p ∈ c3run.2.db.posts,
        pyGetattrPost { row := p, extra := [] } "rewritten_text" = none) := by
  refine ⟨rfl, rfl, rfl, rfl, rfl, rfl, rfl, rfl, ?_⟩
  decide

/-- Claim C4.  When the similarity-index query returns no results (empty
outer result, or an empty first result list, which is also what an empty
24-hour window produces) or the query call fails (which yields the
`{"distances": [[]], "ids": [[]]}` shape), `Deduplicator.check` returns
`is_duplicate = false` with `similarity` and `matched_id` absent: a dedup
failure never marks a post as duplicate. -/
theorem c4_dedup_fail_open (θ : ℚ) (e : List ℚ) (raw native : RawResult)
    (hEmpty : raw.distances.getD [[]] = [] ∨
      ∃ rest, raw.distances.getD [[]] = [] :: rest) :
    check θ e raw =
      { isDuplicate := false, similarity := none, matchedId := none,
        embedding := e }
    ∧ check θ e (querySimilar true native) =
      { isDuplicate := false, similarity := none, matchedId := none,
        embedding := e } := by
  constructor
  · rcases hEmpty with h | ⟨rest, h⟩ <;> simp only [check, h]
  · simp only [querySimilar, queryFailureResult, check, if_pos, Option.getD]

/-- Witness for C4 at a concrete input: an index result whose first
result list is empty. -/
theorem c4_dedup_fail_open_witness :
    ((RawResult.mk (some [[]]) (some [[]])).distances.getD [[]] = [] ∨
      ∃ rest,
        (RawResult.mk (some [[]]) (some [[]])).distances.getD [[]] =
          [] :: rest)
    ∧ check (85 / 100) [1 / 10] (RawResult.mk (some [[]]) (some [[]])) =
        { isDuplicate := false, similarity := none, matchedId := none,
          embedding := [1 / 10] } :=
  ⟨Or.inr ⟨[], rfl⟩,
    (c4_dedup_fail_open (85 / 100) [1 / 10]
      (RawResult.mk (some [[]]) (some [[]]))
      (RawResult.mk (some [[]]) (some [[]])) (Or.inr ⟨[], rfl⟩)).1⟩

/-- Claim C5.  On a non-empty index result, `Deduplicator.check` takes
the index's native first entry (no re-sorting), reports
`similarity = 1 - best distance` and the first entry's id, marks the
decision duplicate exactly when that similarity reaches the threshold,
and returns the computed embedding in the decision in all cases. -/
theorem c5_dedup_decision_postcondition (θ : ℚ) (e : List ℚ)
    (raw : RawResult) (d : ℚ) (ds : List ℚ) (restD : List (List ℚ))
    (i : String) (tlI : List String) (restI : List (List String))
    (hD : raw.distances.getD [[]] = (d :: ds) :: restD)
    (hI : raw.ids.getD [[]] = (i :: tlI) :: restI) :
    (check θ e raw).similarity = some (1 - d)
    ∧ (check θ e raw).matchedId = some i
    ∧ ((check θ e raw).isDuplicate = true ↔ 1 - d ≥ θ)
    ∧ (∀ raw2 : RawResult, (check θ e raw2).embedding = e) := by
  refine ⟨?_, ?_, ?_, ?_⟩
  · simp only [check, hD, hI]
  · simp only [check, hD, hI]
  · simp only [check, hD, hI, decide_eq_true_eq]
  · intro raw2
    unfold check
    dsimp only
    split <;> rfl

/-- Witness for C5 at a concrete input: best distance 1/20 at the default
threshold 0.85 gives similarity 19/20 and a duplicate verdict. -/
theorem c5_dedup_decision_postcondition_witness :
    (RawResult.mk (some [[1 / 20, 1 / 2]]) (some [["doc-1", "doc-2"]])).distances.getD
        [[]] = (1 / 20 :: [1 / 2]) :: []
    ∧ (check defaultDuplicateThreshold [1 / 10]
        (RawResult.mk (some [[1 / 20, 1 / 2]])
          (some [["doc-1", "doc-2"]]))).similarity = some (1 - 1 / 20) :=
  ⟨rfl,
    (c5_dedup_decision_postcondition defaultDuplicateThreshold [1 / 10]
      (RawResult.mk (some [[1 / 20, 1 / 2]]) (some [["doc-1", "doc-2"]]))
      (1 / 20) [1 / 2] [] "doc-1" ["doc-2"] [] rfl rfl).1⟩

/-- Claim C8.  The profiler's tempo bucket is a function of the mean
words-per-sentence of the (non-blank) sample set: `"short"` exactly when
the mean is ≤ 10, `"medium"` exactly when it is in (10, 17], `"long"`
exactly when it exceeds 17; in particular a mean of 10.0 buckets to
short, 10.1 and 17.0 to medium, and 17.1 to long. -/
theorem c8_tempo_boundaries (texts : List (List Char))
    (h : (texts.filter nonBlank).isEmpty = false) :
    ((buildStyleProfile texts).map Profile.tempo =
      some (tempoOf (avgSentenceWordsOf (texts.filter nonBlank))))
    ∧ (∀ m : ℚ, (tempoOf m = "short" ↔ m ≤ 10)
        ∧ (tempoOf m = "medium" ↔ 10 < m ∧ m ≤ 17)
        ∧ (tempoOf m = "long" ↔ 17 < m))
    ∧ tempoOf 10 = "short" ∧ tempoOf (101 / 10) = "medium"
    ∧ tempoOf 17 = "medium" ∧ tempoOf (171 / 10) = "long" := by
  refine ⟨?_, ?_, by norm_num [tempoOf], by norm_num [tempoOf],
    by norm_num [tempoOf], by norm_num [tempoOf]⟩
  · simp only [buildStyleProfile, h, Bool.false_eq_true, if_false]
    rfl
  · intro m
    by_cases h1 : m ≤ 10
    · simp only [tempoOf, if_pos h1]
      refine ⟨⟨fun _ => h1, fun _ => trivial⟩, ⟨?_, ?_⟩, ⟨?_, ?_⟩⟩
      · intro hh; exact absurd hh (by decide)
      · rintro ⟨h10, -⟩; exact absurd h1 (not_le.2 h10)
      · intro hh; exact absurd hh (by decide)
      · intro h17; exact absurd h1 (not_le.2 (by linarith))
    · by_cases h2 : m ≤ 17
      · simp only [tempoOf, if_neg h1, if_pos h2]
        refine ⟨⟨fun hh => absurd hh (by decide), fun hm => absurd hm h1⟩,
          ⟨fun _ => ⟨not_le.1 h1, h2⟩, fun _ => trivial⟩,
          ⟨fun hh => absurd hh (by decide),
            fun h17 => absurd h2 (not_le.2 h17)⟩⟩
      · simp only [tempoOf, if_neg h1, if_neg h2]
        refine ⟨⟨fun hh => absurd hh (by decide), fun hm => absurd hm h1⟩,
          ⟨fun hh => absurd hh (by decide), fun hm => absurd hm.2 h2⟩,
          ⟨fun _ => not_le.1 h2, fun _ => trivial⟩⟩

/-- Witness for C8 at a concrete input: a single ten-word sentence has
mean 10 and buckets to `"short"`. -/
theorem c8_tempo_boundaries_witness :
    ((["a b c d e f g h i j.".toList].filter nonBlank).isEmpty = false)
    ∧ ((buildStyleProfile ["a b c d e f g h i j.".toList]).map
        Profile.tempo =
      some (tempoOf (avgSentenceWordsOf
        (["a b c d e f g h i j.".toList].filter nonBlank)))) :=
  ⟨by decide,
    (c8_tempo_boundaries ["a b c d e f g h i j.".toList] (by decide)).1⟩

/-- Claim C10.  `Brain.generate` passes the Russian style-example list to
the rewriter exactly when some character of the text lowercases into the
Cyrillic range `'а'..'я'`, and the English list otherwise; the range
excludes `'ё'`, so a text whose only Cyrillic letter is `ё` selects the
English examples. -/
theorem c10_rewrite_language_selection
    (rewrite : List Char → List String → Option String → String)
    (settings : Cannibal.BrainM.StyleSettings) (text : List Char)
    (profile : Option String) :
    Cannibal.BrainM.generate rewrite settings text profile =
      rewrite text
        (if Cannibal.BrainM.isCyrillic text then settings.styleExamplesRu
         else settings.styleExamplesEn) profile
    ∧ (Cannibal.BrainM.isCyrillic text = true ↔
        ∃ c ∈ text, 'а' ≤ pyLower c ∧ pyLower c ≤ 'я')
    ∧ Cannibal.BrainM.isCyrillic ['ё'] = false := by
  refine ⟨rfl, ?_, by decide⟩
  simp [Cannibal.BrainM.isCyrillic, List.any_eq_true, Bool.and_eq_true,
    decide_eq_true_eq]

end Cannibal

namespace Cannibal

open Cannibal.DBM Cannibal.Fixtures

/-- The posts table is untouched by channel resolution. -/
theorem getOrCreateChannel_posts (db : DB) (n : String) (i : Option Int)
    (now : Nat) : (getOrCreateChannel db n i now).2.posts = db.posts := by
  unfold getOrCreateChannel
  dsimp only
  split <;> rfl

/-- Key uniqueness makes the conflict fetch deterministic: `find?` returns
the (unique) row with the key. -/
theorem find?_key_unique (l : List PostRow) (cid : Nat) (mid : Int)
    (h : l.Pairwise fun p q =>
      ¬(p.channelId = q.channelId ∧ p.telegramMsgId = q.telegramMsgId))
    (x : PostRow) (hx : x ∈ l) (hcx : x.channelId = cid)
    (hmx : x.telegramMsgId = mid) :
    l.find? (fun p => decide (p.channelId = cid ∧ p.telegramMsgId = mid)) =
      some x := by
  induction l with
  | nil => cases hx
  | cons a tl ih =>
    rw [List.pairwise_cons] at h
    rcases List.mem_cons.1 hx with rfl | hx'
    · rw [List.find?_cons_of_pos]
      simp [hcx, hmx]
    · have ha : ¬(a.channelId = cid ∧ a.telegramMsgId = mid) := by
        rintro ⟨h1, h2⟩
        exact h.1 x hx' ⟨h1.trans hcx.symm, h2.trans hmx.symm⟩
      rw [List.find?_cons_of_neg]
      · exact ih h.2 hx'
      · simpa using ha

/-- Key uniqueness plus existence pins the key count at one. -/
theorem countP_key_unique (l : List PostRow) (cid : Nat) (mid : Int)
    (h : l.Pairwise fun p q =>
      ¬(p.channelId = q.channelId ∧ p.telegramMsgId = q.telegramMsgId))
    (x : PostRow) (hx : x ∈ l) (hcx : x.channelId = cid)
    (hmx : x.telegramMsgId = mid) :
    l.countP (fun p => decide (p.channelId = cid ∧ p.telegramMsgId = mid)) =
      1 := by
  induction l with
  | nil => cases hx
  | cons a tl ih =>
    rw [List.pairwise_cons] at h
    rcases List.mem_cons.1 hx with rfl | hx'
    · rw [List.countP_cons_of_pos _ _ (by simp [hcx, hmx])]
      have : tl.countP
          (fun p => decide (p.channelId = cid ∧ p.telegramMsgId = mid)) =
          0 := by
        rw [List.countP_eq_zero]
        intro y hy
        simp only [decide_eq_true_eq, not_and]
        intro h1 h2
        exact h.1 y hy ⟨hcx.trans h1.symm, hmx.trans h2.symm⟩
      omega
    · have ha : ¬(a.channelId = cid ∧ a.telegramMsgId = mid) := by
        rintro ⟨h1, h2⟩
        exact h.1 x hx' ⟨h1.trans hcx.symm, h2.trans hmx.symm⟩
      rw [List.countP_cons_of_neg _ _ (by simpa using ha)]
      exact ih h.2 hx'

/-- Claim C6.  Store-or-fetch resolves the `(channel, telegram_msg_id)`
uniqueness conflict by abandoning the insert and returning the (unique)
already-existing record with `created = false`, leaving the store
untouched; when no conflict exists the insert happens; in either case
exactly one row with the event's key exists afterwards and per-key
uniqueness of the whole table is preserved, so duplicate or racing
deliveries can never produce a second row. -/
theorem c6_store_or_fetch_conflict (db : DB) (channelName : String)
    (channelId : Option Int) (messageId : Int) (text : String) (now : Nat)
    (hwf : db.posts.Pairwise fun p q =>
      ¬(p.channelId = q.channelId ∧ p.telegramMsgId = q.telegramMsgId)) :
    (∀ p ∈ db.posts,
        p.channelId = (getOrCreateChannel db channelName channelId now).1.id →
        p.telegramMsgId = messageId →
        storeRawPost db channelName channelId messageId text now =
          ({ row := p, extra := [] }, false, db))
    ∧ ((storeRawPost db channelName channelId messageId text now).2.1 =
          false ↔
        ∃ p ∈ db.posts,
          p.channelId = (getOrCreateChannel db channelName channelId now).1.id
          ∧ p.telegramMsgId = messageId)
    ∧ ((storeRawPost db channelName channelId messageId text
          now).2.2.posts.countP
        (fun p => decide
          (p.channelId = (getOrCreateChannel db channelName channelId now).1.id
            ∧ p.telegramMsgId = messageId)) = 1)
    ∧ (storeRawPost db channelName channelId messageId text
        now).2.2.posts.Pairwise
        (fun p q =>
          ¬(p.channelId = q.channelId ∧ p.telegramMsgId = q.telegramMsgId)) := by
  have hposts := getOrCreateChannel_posts db channelName channelId now
  rcases hfind : (getOrCreateChannel db channelName channelId now).2.posts.find?
      (fun p => decide
        (p.channelId = (getOrCreateChannel db channelName channelId now).1.id
          ∧ p.telegramMsgId = messageId)) with _ | x
  · have hsr : storeRawPost db channelName channelId messageId text now =
        ({ row :=
            { id := (getOrCreateChannel db channelName channelId now).2.nextPostId,
              channelId := (getOrCreateChannel db channelName channelId now).1.id,
              telegramMsgId := messageId, text := text, createdAt := now },
           extra := [] },
         true,
         { (getOrCreateChannel db channelName channelId now).2 with
            posts := (getOrCreateChannel db channelName channelId now).2.posts ++
              [{ id := (getOrCreateChannel db channelName channelId now).2.nextPostId,
                 channelId := (getOrCreateChannel db channelName channelId now).1.id,
                 telegramMsgId := messageId, text := text, createdAt := now }],
            nextPostId :=
              (getOrCreateChannel db channelName channelId now).2.nextPostId +
                1 }) := by
      simp only [storeRawPost]
      rw [hfind]
    have hnone : ∀ p ∈ db.posts,
        ¬(p.channelId = (getOrCreateChannel db channelName channelId now).1.id
          ∧ p.telegramMsgId = messageId) := by
      intro p hp
      have := List.find?_eq_none.1 hfind p (by rw [hposts]; exact hp)
      simpa using this
    refine ⟨?_, ?_, ?_, ?_⟩
    · intro p hp h1 h2
      exact absurd ⟨h1, h2⟩ (hnone p hp)
    · rw [hsr]
      constructor
      · intro h; cases h
      · rintro ⟨p, hp, h1, h2⟩
        exact absurd ⟨h1, h2⟩ (hnone p hp)
    · rw [hsr]
      simp only [List.countP_append]
      have h0 : (getOrCreateChannel db channelName channelId
          now).2.posts.countP
          (fun p => decide
            (p.channelId =
                (getOrCreateChannel db channelName channelId now).1.id
              ∧ p.telegramMsgId = messageId)) = 0 := by
        rw [List.countP_eq_zero]
        intro y hy
        have := hnone y (by rw [hposts] at hy; exact hy)
        simpa using this
      rw [h0]
      simp
    · rw [hsr]
      dsimp only
      rw [List.pairwise_append]
      refine ⟨by rw [hposts]; exact hwf, by simp, ?_⟩
      intro a ha b hb
      simp only [List.mem_singleton] at hb
      subst hb
      rintro ⟨h1, h2⟩
      exact hnone a (by rw [hposts] at ha; exact ha) ⟨h1, h2⟩
  · have hx1 : x ∈ db.posts := by
      have := List.mem_of_find?_eq_some hfind
      rw [hposts] at this; exact this
    have hx2 : x.channelId =
        (getOrCreateChannel db channelName channelId now).1.id
        ∧ x.telegramMsgId = messageId := by
      have := List.find?_some hfind
      simpa using this
    have hsr : storeRawPost db channelName channelId messageId text now =
        ({ row := x, extra := [] }, false, db) := by
      simp only [storeRawPost]
      rw [hfind]
    refine ⟨?_, ?_, ?_, ?_⟩
    · intro p hp h1 h2
      have hfp : db.posts.find?
          (fun q => decide
            (q.channelId =
                (getOrCreateChannel db channelName channelId now).1.id
              ∧ q.telegramMsgId = messageId)) = some p :=
        find?_key_unique db.posts _ _ hwf p hp h1 h2
      have hfx : db.posts.find?
          (fun q => decide
            (q.channelId =
                (getOrCreateChannel db channelName channelId now).1.id
              ∧ q.telegramMsgId = messageId)) = some x := by
        rw [hposts] at hfind; exact hfind
      rw [hsr]
      have hpx : p = x := Option.some.inj (hfp.symm.trans hfx)
      rw [hpx]
    · rw [hsr]
      exact ⟨fun _ => ⟨x, hx1, hx2⟩, fun _ => rfl⟩
    · rw [hsr]
      exact countP_key_unique db.posts _ _ hwf x hx1 hx2.1 hx2.2
    · rw [hsr]
      exact hwf

/-- Witness for C6 at a concrete input: redelivering message 7 to the
store that already holds it fetches the existing row instead of
inserting, and exactly one row with the key remains. -/
theorem c6_store_or_fetch_conflict_witness :
    (conflictDb.posts.Pairwise fun p q =>
      ¬(p.channelId = q.channelId ∧ p.telegramMsgId = q.telegramMsgId))
    ∧ ((storeRawPost conflictDb "chan" (some 5) 7 "hi again" 20).2.2.posts.countP
        (fun p => decide
          (p.channelId =
              (getOrCreateChannel conflictDb "chan" (some 5) 20).1.id
            ∧ p.telegramMsgId = 7)) = 1) :=
  ⟨by simp [conflictDb], (c6_store_or_fetch_conflict conflictDb "chan"
    (some 5) 7 "hi again" 20 (by simp [conflictDb])).2.2.1⟩

end Cannibal

namespace Cannibal

/-- First-occurrence index as a decomposition: `findIdx?` for the first
`c` returns `i` exactly when the list splits as `pre ++ c :: post` with
`c` absent from `pre` and `pre` of length `i`. -/
theorem findIdx?_first_occurrence (s : List Char) (c : Char) (i : Nat) :
    s.findIdx? (· = c) = some i ↔
      ∃ pre post, s = pre ++ c :: post ∧ c ∉ pre ∧ pre.length = i := by
  induction s generalizing i with
  | nil =>
    simp only [List.findIdx?_nil]
    constructor
    · intro h; cases h
    · rintro ⟨pre, post, h, -, -⟩
      exact absurd h (by simp)
  | cons a tl ih =>
    rw [List.findIdx?_cons]
    by_cases ha : a = c
    · rw [if_pos (show (decide (a = c)) = true by simp [ha])]
      constructor
      · intro h
        obtain rfl : i = 0 := (Option.some.inj h).symm
        exact ⟨[], tl, by simp [ha], by simp, rfl⟩
      · rintro ⟨pre, post, hdecomp, hnotin, hlen⟩
        rcases pre with _ | ⟨x, pre'⟩
        · simp only [List.length_nil] at hlen; rw [← hlen]
        · have hx : x = a := by
            have := congrArg List.head? hdecomp
            simpa using this.symm
          have hcx : c = x := (hx.trans ha).symm
          exact absurd (by rw [hcx]; exact List.mem_cons_self x pre') hnotin
    · rw [if_neg (show ¬(decide (a = c)) = true by simp [ha])]
      rw [List.findIdx?_succ]
      constructor
      · intro h
        obtain ⟨j, hj, rfl⟩ :
            ∃ j, tl.findIdx? (· = c) = some j ∧ j + 1 = i := by
          rcases hmap : tl.findIdx? (· = c) with _ | j
          · rw [hmap] at h; cases h
          · rw [hmap] at h
            exact ⟨j, rfl, by simpa using Option.some.inj h⟩
        obtain ⟨pre, post, hdecomp, hnotin, hlen⟩ := (ih j).1 hj
        refine ⟨a :: pre, post, by simp [hdecomp], ?_, by simp [hlen]⟩
        simp only [List.mem_cons, not_or]
        exact ⟨fun hc => ha hc.symm, hnotin⟩
      · rintro ⟨pre, post, hdecomp, hnotin, hlen⟩
        rcases pre with _ | ⟨x, pre'⟩
        · have : a = c := by
            have := congrArg List.head? hdecomp
            simpa using this
          exact absurd this ha
        · have hx : x = a := by
            have := congrArg List.head? hdecomp
            simpa using this.symm
          have htl : tl = pre' ++ c :: post := by
            have := congrArg List.tail hdecomp
            simpa using this
          have hnotin' : c ∉ pre' := fun hc =>
            hnotin (List.mem_cons_of_mem _ hc)
          rw [(ih pre'.length).2 ⟨pre', post, htl, hnotin', rfl⟩]
          exact congrArg some (by simpa using hlen)

end Cannibal

namespace Cannibal.Style

/-- Invariant of the counting fold: every entry of the accumulator counts
its key's occurrences in the already-processed prefix, keys of processed
items are all present, and folding the remaining items keeps this. -/
theorem counterFold_spec [BEq α] [LawfulBEq α] (items : List α) :
    ∀ (processed : List α) (acc : List (α × Nat)),
      (∀ kv ∈ acc, kv.1 ∈ processed ∧ kv.2 = processed.count kv.1) →
      (∀ a ∈ processed, ∃ kv ∈ acc, kv.1 = a) →
      ∀ kv ∈ items.foldl counterAdd acc,
        kv.1 ∈ processed ++ items
        ∧ kv.2 = (processed ++ items).count kv.1 := by
  induction items with
  | nil =>
    intro processed acc hacc _ kv hkv
    simp only [List.foldl_nil] at hkv
    simpa using hacc kv hkv
  | cons x rest ih =>
    intro processed acc hacc hcov kv hkv
    simp only [List.foldl_cons] at hkv
    have hmain := ih (processed ++ [x]) (counterAdd acc x) ?_ ?_ kv hkv
    · constructor
      · have := hmain.1; simpa [List.append_assoc] using this
      · have := hmain.2; simpa [List.append_assoc] using this
    · intro kv' hkv'
      unfold counterAdd at hkv'
      by_cases hany : acc.any (fun kv => kv.1 == x)
      · rw [if_pos hany] at hkv'
        obtain ⟨kv0, hkv0, hkv0eq⟩ := List.mem_map.1 hkv'
        by_cases hkey : kv0.1 == x
        · rw [if_pos hkey] at hkv0eq
          have hx : kv0.1 = x := eq_of_beq hkey
          obtain ⟨hmem0, hcnt0⟩ := hacc kv0 hkv0
          subst hkv0eq
          refine ⟨List.mem_append_left _ hmem0, ?_⟩
          rw [List.count_append]
          simp [hx, hcnt0]
        · rw [if_neg hkey] at hkv0eq
          subst hkv0eq
          obtain ⟨hmem0, hcnt0⟩ := hacc kv0 hkv0
          refine ⟨List.mem_append_left _ hmem0, ?_⟩
          rw [List.count_append, List.count_singleton]
          have hbx : (x == kv0.1) = false := by
            rcases hbeq : x == kv0.1 with _ | _
            · rfl
            · exact absurd (by simp [eq_of_beq hbeq]) hkey
          simp [hbx, hcnt0]
      · rw [if_neg hany] at hkv'
        have hxnotin : x ∉ processed := by
          intro hxp
          obtain ⟨kv0, hkv0, hkv0x⟩ := hcov x hxp
          exact hany (List.any_eq_true.2 ⟨kv0, hkv0, by simp [hkv0x]⟩)
        rcases List.mem_append.1 hkv' with hin | hnew
        · obtain ⟨hmem0, hcnt0⟩ := hacc kv' hin
          refine ⟨List.mem_append_left _ hmem0, ?_⟩
          have hne : kv'.1 ≠ x := fun hk => hxnotin (hk ▸ hmem0)
          rw [List.count_append, List.count_singleton]
          have hbx : (x == kv'.1) = false := by
            rcases hbeq : x == kv'.1 with _ | _
            · rfl
            · exact absurd (eq_of_beq hbeq).symm hne
          simp [hbx, hcnt0]
        · simp only [List.mem_singleton] at hnew
          subst hnew
          refine ⟨List.mem_append_right _ (by simp), ?_⟩
          rw [List.count_append]
          simp [List.count_eq_zero_of_not_mem hxnotin]
    · intro a ha
      rcases List.mem_append.1 ha with hap | hax
      · obtain ⟨kv0, hkv0, hkv0a⟩ := hcov a hap
        unfold counterAdd
        by_cases hany : acc.any (fun kv => kv.1 == x)
        · rw [if_pos hany]
          refine ⟨if kv0.1 == x then (kv0.1, kv0.2 + 1) else kv0,
            List.mem_map.2 ⟨kv0, hkv0, rfl⟩, ?_⟩
          by_cases hk : (kv0.1 == x) = true
          · rw [if_pos hk]; exact hkv0a
          · rw [if_neg hk]; exact hkv0a
        · rw [if_neg hany]
          exact ⟨kv0, List.mem_append_left _ hkv0, hkv0a⟩
      · simp only [List.mem_singleton] at hax
        subst hax
        unfold counterAdd
        by_cases hany : acc.any (fun kv => kv.1 == a)
        · rw [if_pos hany]
          obtain ⟨kv0, hkv0, hkv0a⟩ := List.any_eq_true.1 hany
          refine ⟨(kv0.1, kv0.2 + 1),
            List.mem_map.2 ⟨kv0, hkv0, by simp [hkv0a]⟩, eq_of_beq hkv0a⟩
        · rw [if_neg hany]
          exact ⟨(a, 1), List.mem_append_right _ (by simp), rfl⟩

/-- Every entry of `counterOf items` is a key occurring in `items`
together with its exact occurrence count. -/
theorem counterOf_spec [BEq α] [LawfulBEq α] (items : List α) :
    ∀ kv ∈ counterOf items, kv.1 ∈ items ∧ kv.2 = items.count kv.1 := by
  intro kv hkv
  have := counterFold_spec items [] [] (by simp) (by simp) kv hkv
  simpa using this

end Cannibal.Style

namespace Cannibal.Style

open Cannibal.Fixtures

/-- Claim C9.  A sample text's candidate lead label is the stripped text
before the first colon of the (stripped) first line, exactly when that
colon is preceded by at least one and at most 15 characters and the
stripped text before it is non-empty with at most 3 whitespace-separated
words; the profile keeps at most five labels, ranked by non-increasing
candidate frequency, each of which is the candidate label of some sample
text. -/
theorem c9_lead_label_extraction :
    (∀ t l : List Char, nonBlank t = true →
      (leadLabel t = some l ↔
        ∃ line rest pre post,
          pySplitlines (pyStrip t) = line :: rest ∧
          pyStrip line = pre ++ ':' :: post ∧
          ':' ∉ pre ∧
          0 < pre.length ∧ pre.length ≤ 15 ∧
          l = pyStrip pre ∧ l ≠ [] ∧ (pySplit l).length ≤ 3))
    ∧ (∀ (texts : List (List Char)) (p : Profile),
        buildStyleProfile texts = some p →
        p.topLabels.length ≤ 5
        ∧ p.topLabels.Pairwise (fun a b =>
            ((texts.filter nonBlank).filterMap leadLabel).count b ≤
              ((texts.filter nonBlank).filterMap leadLabel).count a)
        ∧ (∀ l ∈ p.topLabels,
            ∃ t ∈ texts, nonBlank t = true ∧ leadLabel t = some l)) := by
  constructor
  · intro t l _hnb
    rcases hsp : pySplitlines (pyStrip t) with _ | ⟨line, rest⟩
    · constructor
      · intro h
        unfold leadLabel at h
        rw [hsp] at h
        cases h
      · rintro ⟨line, rest, pre, post, hline, -⟩
        cases hline
    · have hLL : leadLabel t =
          (if 0 < pyFind (pyStrip line) ':'
              ∧ pyFind (pyStrip line) ':' ≤ 15 then
            (if ¬(pyStrip ((pyStrip line).take
                  (pyFind (pyStrip line) ':').toNat)).isEmpty
                ∧ (pySplit (pyStrip ((pyStrip line).take
                    (pyFind (pyStrip line) ':').toNat))).length ≤ 3 then
              some (pyStrip ((pyStrip line).take
                (pyFind (pyStrip line) ':').toNat))
            else none)
          else none) := by
        unfold leadLabel
        rw [hsp]
      rcases hf : (pyStrip line).findIdx? (· = ':') with _ | i
      · have hfind : pyFind (pyStrip line) ':' = -1 := by
          unfold pyFind; rw [hf]
        rw [hLL, hfind, if_neg (by omega)]
        constructor
        · intro h; cases h
        · rintro ⟨line', rest', pre, post, hline, hdec, hnotin, -⟩
          have hLeq : line = line' := (List.cons.inj hline).1
          rw [← hLeq] at hdec
          have := (findIdx?_first_occurrence (pyStrip line) ':' pre.length).2
            ⟨pre, post, hdec, hnotin, rfl⟩
          rw [hf] at this
          cases this
      · obtain ⟨pre, post, hpre, hnotin, hlen⟩ :=
          (findIdx?_first_occurrence (pyStrip line) ':' i).1 hf
        have hfind : pyFind (pyStrip line) ':' = (i : Int) := by
          unfold pyFind; rw [hf]
        have htake : (pyStrip line).take i = pre := by
          rw [hpre]; exact List.take_left' hlen
        by_cases hcond : 0 < i ∧ i ≤ 15
        · have hcondInt : 0 < pyFind (pyStrip line) ':'
              ∧ pyFind (pyStrip line) ':' ≤ 15 := by
            rw [hfind]
            exact ⟨by exact_mod_cast hcond.1, by exact_mod_cast hcond.2⟩
          have htoNat : (pyFind (pyStrip line) ':').toNat = i := by
            rw [hfind]; simp
          rw [hLL, if_pos hcondInt, htoNat, htake]
          by_cases hinner : ¬(pyStrip pre).isEmpty
              ∧ (pySplit (pyStrip pre)).length ≤ 3
          · rw [if_pos hinner]
            constructor
            · intro h
              obtain rfl : l = pyStrip pre := (Option.some.inj h).symm
              refine ⟨line, rest, pre, post, rfl, hpre, hnotin, ?_, ?_, rfl,
                ?_, hinner.2⟩
              · omega
              · omega
              · intro hl
                exact hinner.1 (by rw [hl]; rfl)
            · rintro ⟨line', rest', pre', post', hline, hdec, hnotin', hpos,
                hle, hl, hlne, hwords⟩
              have hLeq : line = line' := (List.cons.inj hline).1
              rw [← hLeq] at hdec
              have hfind' := (findIdx?_first_occurrence (pyStrip line) ':'
                pre'.length).2 ⟨pre', post', hdec, hnotin', rfl⟩
              rw [hf] at hfind'
              have hlen' : pre'.length = i := (Option.some.inj hfind').symm
              have hpp : pre' = pre := by
                have h1 : (pyStrip line).take pre'.length = pre' := by
                  rw [hdec]; exact List.take_left' rfl
                rw [hlen'] at h1
                rw [← h1, htake]
              rw [hl, hpp]
          · rw [if_neg hinner]
            constructor
            · intro h; cases h
            · rintro ⟨line', rest', pre', post', hline, hdec, hnotin', hpos,
                hle, hl, hlne, hwords⟩
              have hLeq : line = line' := (List.cons.inj hline).1
              rw [← hLeq] at hdec
              have hfind' := (findIdx?_first_occurrence (pyStrip line) ':'
                pre'.length).2 ⟨pre', post', hdec, hnotin', rfl⟩
              rw [hf] at hfind'
              have hlen' : pre'.length = i := (Option.some.inj hfind').symm
              have hpp : pre' = pre := by
                have h1 : (pyStrip line).take pre'.length = pre' := by
                  rw [hdec]; exact List.take_left' rfl
                rw [hlen'] at h1
                rw [← h1, htake]
              refine absurd ⟨?_, ?_⟩ hinner
              · rw [← hpp, ← hl]
                intro hempty
                exact hlne (List.isEmpty_iff.1 hempty)
              · rw [← hpp, ← hl]; exact hwords
        · rw [hLL, if_neg (by rw [hfind]; omega)]
          constructor
          · intro h; cases h
          · rintro ⟨line', rest', pre', post', hline, hdec, hnotin', hpos,
              hle, -⟩
            have hLeq : line = line' := (List.cons.inj hline).1
            rw [← hLeq] at hdec
            have hfind' := (findIdx?_first_occurrence (pyStrip line) ':'
              pre'.length).2 ⟨pre', post', hdec, hnotin', rfl⟩
            rw [hf] at hfind'
            have hlen' : pre'.length = i := (Option.some.inj hfind').symm
            omega
  · intro texts p hp
    have htop : p.topLabels =
        mostCommon 5
          (counterOf ((texts.filter nonBlank).filterMap leadLabel)) := by
      simp only [buildStyleProfile] at hp
      split at hp
      · cases hp
      · have hrec := Option.some.inj hp
        rw [← hrec]
    have hsorted :
        ((counterOf ((texts.filter nonBlank).filterMap leadLabel)).mergeSort
          (fun a b => decide (b.2 ≤ a.2))).Pairwise
          (fun a b => (decide (b.2 ≤ a.2)) = true) :=
      List.sorted_mergeSort
        (fun a b c hab hbc => by
          simp only [decide_eq_true_eq] at hab hbc ⊢
          omega)
        (fun a b => by
          simp only [Bool.or_eq_true, decide_eq_true_eq]
          omega)
        (counterOf ((texts.filter nonBlank).filterMap leadLabel))
    have hmemCount : ∀ kv ∈ ((counterOf ((texts.filter nonBlank).filterMap
          leadLabel)).mergeSort (fun a b => decide (b.2 ≤ a.2))).take 5,
        kv.2 = ((texts.filter nonBlank).filterMap leadLabel).count kv.1
        ∧ kv.1 ∈ (texts.filter nonBlank).filterMap leadLabel := by
      intro kv hkv
      have h1 := List.take_subset 5 _ hkv
      have h2 := List.mem_mergeSort.1 h1
      have h3 := counterOf_spec ((texts.filter nonBlank).filterMap leadLabel)
        kv h2
      exact ⟨h3.2, h3.1⟩
    refine ⟨?_, ?_, ?_⟩
    · rw [htop]
      unfold mostCommon
      rw [List.length_map]
      exact List.length_take_le 5 _
    · rw [htop]
      unfold mostCommon
      refine List.pairwise_map.2 ?_
      refine List.Pairwise.imp_of_mem ?_
        ((hsorted).sublist (List.take_sublist 5 _))
      intro a b ha hb hab
      simp only [decide_eq_true_eq] at hab
      rw [← (hmemCount a ha).1, ← (hmemCount b hb).1]
      exact hab
    · intro l hl
      rw [htop] at hl
      unfold mostCommon at hl
      obtain ⟨kv, hkv, rfl⟩ := List.mem_map.1 hl
      have hin := (hmemCount kv hkv).2
      obtain ⟨t, ht, hleq⟩ := List.mem_filterMap.1 hin
      obtain ⟨ht1, ht2⟩ := List.mem_filter.1 ht
      exact ⟨t, ht1, ht2, hleq⟩

/-- Witness for C9 at a concrete input: `"Факт: Рынок вырос."` yields the
label `"Факт"` (colon preceded by 4 characters, one word), and the
profile of that single sample keeps at most five labels. -/
theorem c9_lead_label_extraction_witness :
    nonBlank c9text = true
    ∧ leadLabel c9text = some "Факт".toList
    ∧ buildStyleProfile [c9text] = some c9prof
    ∧ c9prof.topLabels.length ≤ 5 :=
  ⟨by decide,
    (c9_lead_label_extraction.1 c9text "Факт".toList (by decide)).2
      ⟨c9text, [], "Факт".toList, " Рынок вырос.".toList, by decide,
        by decide, by decide, by decide, by decide, by decide, by decide,
        by decide⟩,
    by rfl,
    (c9_lead_label_extraction.2 [c9text] c9prof (by rfl)).1⟩

end Cannibal.Style

namespace Cannibal.Style

open Cannibal.Fixtures Cannibal.DBM

/-- Key just written is found (`d[k] = v` then `d[k]`). -/
theorem dictGet_append_single_self [BEq α] [LawfulBEq α]
    (d : List (α × β)) (k : α) (v : β)
    (hall : ∀ x ∈ d, (x.1 == k) = false) :
    dictGet (d ++ [(k, v)]) k = some v := by
  induction d with
  | nil => simp [dictGet]
  | cons kv rest ih =>
    rw [List.cons_append]
    unfold dictGet
    rw [hall kv (List.mem_cons_self kv rest), if_neg (by simp)]
    exact ih fun x hx => hall x (List.mem_cons_of_mem kv hx)

/-- Appending an entry for a different key does not change a lookup. -/
theorem dictGet_append_single_ne [BEq α] [LawfulBEq α]
    (d : List (α × β)) (k : α) (v : β) (k' : α) (hne : k' ≠ k) :
    dictGet (d ++ [(k, v)]) k' = dictGet d k' := by
  induction d with
  | nil =>
    simp only [List.nil_append, dictGet]
    rw [if_neg (by simp [(Ne.symm hne : ¬k = k')])]
  | cons kv rest ih =>
    rw [List.cons_append]
    unfold dictGet
    cases hkk : kv.1 == k' with
    | true => simp [hkk]
    | false => simp only [hkk, Bool.false_eq_true, if_false]; exact ih

/-- Overwriting an existing key makes lookup return the new value. -/
theorem dictGet_map_update_self [BEq α] [LawfulBEq α]
    (d : List (α × β)) (k : α) (v : β)
    (hany : (d.any fun x => x.1 == k) = true) :
    dictGet (d.map fun kv => if kv.1 == k then (k, v) else kv) k =
      some v := by
  induction d with
  | nil => cases hany
  | cons kv rest ih =>
    rw [List.map_cons]
    by_cases hk : (kv.1 == k) = true
    · rw [if_pos hk]
      unfold dictGet
      rw [if_pos (by simp)]
    · rw [if_neg hk]
      unfold dictGet
      rw [if_neg hk]
      refine ih ?_
      rcases List.any_eq_true.1 hany with ⟨x, hx, hxk⟩
      rcases List.mem_cons.1 hx with rfl | hx'
      · exact absurd hxk hk
      · exact List.any_eq_true.2 ⟨x, hx', hxk⟩

/-- Overwriting one key does not change another key's lookup. -/
theorem dictGet_map_update_ne [BEq α] [LawfulBEq α]
    (d : List (α × β)) (k : α) (v : β) (k' : α) (hne : k' ≠ k) :
    dictGet (d.map fun kv => if kv.1 == k then (k, v) else kv) k' =
      dictGet d k' := by
  induction d with
  | nil => rfl
  | cons kv rest ih =>
    rw [List.map_cons]
    by_cases hk : (kv.1 == k) = true
    · rw [if_pos hk]
      unfold dictGet
      have h1 : (k == k') = false := by
        rcases hbeq : k == k' with _ | _
        · rfl
        · exact absurd (eq_of_beq hbeq).symm hne
      have h2 : (kv.1 == k') = false := by
        rcases hbeq : kv.1 == k' with _ | _
        · rfl
        · exact absurd ((eq_of_beq hbeq).symm.trans (eq_of_beq hk)) hne
      rw [h1, h2]
      simp only [Bool.false_eq_true, if_false]
      exact ih
    · rw [if_neg hk]
      unfold dictGet
      cases hkk : kv.1 == k' with
      | true => simp [hkk]
      | false => simp only [hkk, Bool.false_eq_true, if_false]; exact ih

/-- `d[k] = v` then `d[k]` gives `v`. -/
theorem dictGet_dictInsert_self [BEq α] [LawfulBEq α]
    (d : List (α × β)) (k : α) (v : β) :
    dictGet (dictInsert d k v) k = some v := by
  unfold dictInsert
  by_cases hany : (d.any fun x => x.1 == k) = true
  · rw [if_pos hany]
    exact dictGet_map_update_self d k v hany
  · rw [if_neg hany]
    refine dictGet_append_single_self d k v ?_
    intro x hx
    rcases hbeq : x.1 == k with _ | _
    · rfl
    · exact absurd (List.any_eq_true.2 ⟨x, hx, hbeq⟩) hany

/-- `d[k] = v` leaves other keys' lookups unchanged. -/
theorem dictGet_dictInsert_ne [BEq α] [LawfulBEq α]
    (d : List (α × β)) (k : α) (v : β) (k' : α) (hne : k' ≠ k) :
    dictGet (dictInsert d k v) k' = dictGet d k' := by
  unfold dictInsert
  by_cases hany : (d.any fun x => x.1 == k) = true
  · rw [if_pos hany]
    exact dictGet_map_update_ne d k v k' hne
  · rw [if_neg hany]
    exact dictGet_append_single_ne d k v k' hne

/-- A profiling step for a channel of a different name does not change
the name lookup. -/
theorem profileStep_byName_other (db : DB) (limit : Nat)
    (acc : ProfileCache) (c : ChannelRow) (name : String)
    (hne : name ≠ c.name) :
    dictGet (profileStep db limit acc c).byChannelName name =
      dictGet acc.byChannelName name := by
  unfold profileStep
  cases profileEntry db limit c with
  | none => rfl
  | some f =>
    dsimp only
    exact dictGet_dictInsert_ne _ _ _ _ hne

/-- Folding over channels with other names preserves a name lookup. -/
theorem foldl_profileStep_byName_preserved (db : DB) (limit : Nat)
    (cs : List ChannelRow) (acc : ProfileCache) (name : String)
    (h : ∀ c' ∈ cs, name ≠ c'.name) :
    dictGet ((cs.foldl (profileStep db limit) acc).byChannelName) name =
      dictGet acc.byChannelName name := by
  induction cs generalizing acc with
  | nil => rfl
  | cons c' rest ih =>
    rw [List.foldl_cons]
    rw [ih (profileStep db limit acc c')
      (fun c'' hc'' => h c'' (List.mem_cons_of_mem c' hc''))]
    exact profileStep_byName_other db limit acc c' name
      (h c' (List.mem_cons_self c' rest))

/-- With unique channel names, the profiling fold's name lookup for a
channel is exactly that channel's own entry. -/
theorem foldl_profileStep_byName_lookup (db : DB) (limit : Nat)
    (cs : List ChannelRow) (acc : ProfileCache) (c : ChannelRow)
    (hc : c ∈ cs) (hnodup : (cs.map ChannelRow.name).Nodup)
    (hacc : dictGet acc.byChannelName c.name = none) :
    dictGet ((cs.foldl (profileStep db limit) acc).byChannelName) c.name =
      profileEntry db limit c := by
  induction cs generalizing acc with
  | nil => cases hc
  | cons c' rest ih =>
    rw [List.map_cons, List.nodup_cons] at hnodup
    rw [List.foldl_cons]
    rcases List.mem_cons.1 hc with rfl | hcr
    · have hrest : ∀ c'' ∈ rest, c.name ≠ c''.name := by
        intro c'' hc'' heq
        exact hnodup.1 (heq ▸ List.mem_map_of_mem ChannelRow.name hc'')
      rw [foldl_profileStep_byName_preserved db limit rest _ c.name hrest]
      unfold profileStep
      cases hentry : profileEntry db limit c with
      | none => exact hacc
      | some f =>
        dsimp only
        exact dictGet_dictInsert_self _ _ _
    · have hne : c.name ≠ c'.name := by
        intro heq
        exact hnodup.1 (heq ▸ List.mem_map_of_mem ChannelRow.name hcr)
      refine ih (profileStep db limit acc c') hcr hnodup.2 ?_
      rw [profileStep_byName_other db limit acc c' c.name hne]
      exact hacc

/-- A profiling step for a channel with a different telegram id does not
change the id lookup. -/
theorem profileStep_byId_other (db : DB) (limit : Nat)
    (acc : ProfileCache) (c : ChannelRow) (tid : Int)
    (hne : c.telegramId ≠ some tid) :
    dictGet (profileStep db limit acc c).byChannelId tid =
      dictGet acc.byChannelId tid := by
  unfold profileStep
  cases profileEntry db limit c with
  | none => rfl
  | some f =>
    dsimp only
    cases hct : c.telegramId with
    | none => rfl
    | some t' =>
      dsimp only
      refine dictGet_dictInsert_ne _ _ _ _ ?_
      intro heq
      exact hne (by rw [hct, heq])

/-- Folding over channels with other telegram ids preserves an id
lookup. -/
theorem foldl_profileStep_byId_preserved (db : DB) (limit : Nat)
    (cs : List ChannelRow) (acc : ProfileCache) (tid : Int)
    (h : ∀ c' ∈ cs, c'.telegramId ≠ some tid) :
    dictGet ((cs.foldl (profileStep db limit) acc).byChannelId) tid =
      dictGet acc.byChannelId tid := by
  induction cs generalizing acc with
  | nil => rfl
  | cons c' rest ih =>
    rw [List.foldl_cons]
    rw [ih (profileStep db limit acc c')
      (fun c'' hc'' => h c'' (List.mem_cons_of_mem c' hc''))]
    exact profileStep_byId_other db limit acc c' tid
      (h c' (List.mem_cons_self c' rest))

/-- With unique telegram ids, the profiling fold's id lookup for a
channel carrying that id is exactly that channel's own entry. -/
theorem foldl_profileStep_byId_lookup (db : DB) (limit : Nat)
    (cs : List ChannelRow) (acc : ProfileCache) (c : ChannelRow) (tid : Int)
    (hc : c ∈ cs) (htid : c.telegramId = some tid)
    (hnodup : (cs.filterMap ChannelRow.telegramId).Nodup)
    (hacc : dictGet acc.byChannelId tid = none) :
    dictGet ((cs.foldl (profileStep db limit) acc).byChannelId) tid =
      profileEntry db limit c := by
  induction cs generalizing acc with
  | nil => cases hc
  | cons c' rest ih =>
    rw [List.foldl_cons]
    rcases List.mem_cons.1 hc with rfl | hcr
    · have hnodup' : tid ∉ rest.filterMap ChannelRow.telegramId := by
        rw [List.filterMap_cons, htid] at hnodup
        exact (List.nodup_cons.1 hnodup).1
      have hrest : ∀ c'' ∈ rest, c''.telegramId ≠ some tid := by
        intro c'' hc'' heq
        exact hnodup' (List.mem_filterMap.2 ⟨c'', hc'', heq⟩)
      rw [foldl_profileStep_byId_preserved db limit rest _ tid hrest]
      unfold profileStep
      cases hentry : profileEntry db limit c with
      | none => exact hacc
      | some f =>
        dsimp only
        rw [htid]
        exact dictGet_dictInsert_self _ _ _
    · have hmem : tid ∈ rest.filterMap ChannelRow.telegramId :=
        List.mem_filterMap.2 ⟨c, hcr, htid⟩
      have hnodup' : (rest.filterMap ChannelRow.telegramId).Nodup := by
        rw [List.filterMap_cons] at hnodup
        cases hct : c'.telegramId with
        | none => rw [hct] at hnodup; exact hnodup
        | some t' => rw [hct] at hnodup; exact (List.nodup_cons.1 hnodup).2
      have hne : c'.telegramId ≠ some tid := by
        intro heq
        rw [List.filterMap_cons, heq] at hnodup
        exact (List.nodup_cons.1 hnodup).1 hmem
      refine ih (profileStep db limit acc c') hcr hnodup' ?_
      rw [profileStep_byId_other db limit acc c' tid hne]
      exact hacc

/-- The profile's sample size is the number of non-blank samples. -/
theorem buildStyleProfile_sampleSize (texts : List (List Char)) (p : Profile)
    (hp : buildStyleProfile texts = some p) :
    p.sampleSize = (texts.filter nonBlank).length := by
  simp only [buildStyleProfile] at hp
  split at hp
  · cases hp
  · rw [← Option.some.inj hp]

/-- `build_style_profile` returns the empty profile exactly when every
sample is blank. -/
theorem buildStyleProfile_eq_none_iff (texts : List (List Char)) :
    buildStyleProfile texts = none ↔
      (texts.filter nonBlank).isEmpty = true := by
  simp only [buildStyleProfile]
  split
  · next h => simp [h]
  · next h => simp [h]

/-- Joined lines are at least as long as the first line. -/
theorem joinNl_length_le (a : String) (l : List String) :
    a.length ≤ (joinNl (a :: l)).length := by
  cases l with
  | nil => simp [joinNl]
  | cons b rest =>
    show a.length ≤ (a ++ "\n" ++ joinNl (b :: rest)).length
    simp only [String.length_append]
    omega

/-- A non-empty profile always renders to non-empty text (its first line
is the sample-size line). -/
theorem formatStyleProfile_some_ne (p : Profile) :
    formatStyleProfile (some p) ≠ "" := by
  intro h
  have hle := joinNl_length_le
    ("Sample size: " ++ toString p.sampleSize ++ " posts")
    (("Avg length: ~" ++ toString p.avgChars ++ " chars") ::
      ((match p.avgSentenceWords with
        | some q =>
          if q ≠ 0 then
            ["Avg sentence length: ~" ++ toString q ++ " words"]
          else []
        | none => [])
      ++ ["Tempo: " ++ p.tempo ++ " sentences"]
      ++ (if ¬ p.topLabels.isEmpty then
            ["Lead labels: " ++
              String.intercalate ", " (p.topLabels.map List.asString)]
          else [])
      ++ (if ¬ p.topOpenings.isEmpty then
            ["Common openings: " ++
              String.intercalate ", " (p.topOpenings.map List.asString)]
          else [])
      ++ ["Formatting: colon in " ++ toString (p.colonRatio * 100).floor ++
          "%, dash in " ++ toString (p.dashRatio * 100).floor ++
          "%, lists in " ++ toString (p.listRatio * 100).floor ++
          "%, newlines in " ++ toString (p.newlineRatio * 100).floor ++ "%."]
      ++ (if p.emojiRatio > 0 then
            ["Emojis in " ++ toString (p.emojiRatio * 100).floor ++
                "% posts" ++
              (if ¬ p.topEmojis.isEmpty then
                "; common: " ++
                  String.intercalate ", "
                    (p.topEmojis.map fun c => String.mk [c])
              else "")]
          else [])))
  rw [show joinNl _ = formatStyleProfile (some p) from rfl, h] at hle
  simp only [String.length_append] at hle
  have h13 : ("Sample size: " : String).length = 13 := rfl
  have h0 : ("" : String).length = 0 := rfl
  omega

/-- Counterexample to claim C7 as stated: with `limit = 30` the minimum
is `max(10, 30 // 3) = 10`; a source with exactly 10 available posts, one
of them whitespace-only, yields a profile whose `sampleSize` is 9, not
the available count 10. -/
theorem c7_style_threshold_counterexample :
    (fetchRecentTexts c7db 1 30).length = max 10 (30 / 3)
    ∧ ((buildStyleProfile (fetchRecentTexts c7db 1 30)).map
        Profile.sampleSize ≠ some (fetchRecentTexts c7db 1 30).length)
    ∧ ((buildStyleProfile (fetchRecentTexts c7db 1 30)).map
        Profile.sampleSize = some 9) :=
  ⟨by decide, by decide, by decide⟩

/-- Claim C7 as amended.  A source with fewer than `max(10, limit // 3)`
fetched posts gets no profile entry, by name or by telegram id.  A source
with exactly that minimum gets a profile whose `sampleSize` is the number
of its fetched posts with non-blank text — equal to the available count
when all fetched posts are non-blank — and a profile entry under its
name, unless every fetched post is blank, in which case it gets no
entry. -/
theorem c7_style_threshold_amended (db : DB) (limit : Nat) (c : ChannelRow)
    (hc : c ∈ db.channels)
    (hnames : (db.channels.map ChannelRow.name).Nodup)
    (hids : (db.channels.filterMap ChannelRow.telegramId).Nodup) :
    ((fetchRecentTexts db c.id limit).length < max 10 (limit / 3) →
      dictGet (buildStyleProfiles db limit none).byChannelName c.name = none
      ∧ ∀ tid, c.telegramId = some tid →
          dictGet (buildStyleProfiles db limit none).byChannelId tid = none)
    ∧ ((fetchRecentTexts db c.id limit).length = max 10 (limit / 3) →
        (∀ p, buildStyleProfile (fetchRecentTexts db c.id limit) = some p →
          p.sampleSize =
            ((fetchRecentTexts db c.id limit).filter nonBlank).length)
        ∧ (((fetchRecentTexts db c.id limit).filter nonBlank).isEmpty =
              false →
            dictGet (buildStyleProfiles db limit none).byChannelName c.name =
              some (formatStyleProfile
                (buildStyleProfile (fetchRecentTexts db c.id limit))))
        ∧ (((fetchRecentTexts db c.id limit).filter nonBlank).isEmpty =
              true →
            dictGet (buildStyleProfiles db limit none).byChannelName c.name =
              none)) := by
  have hcache : buildStyleProfiles db limit none =
      db.channels.foldl (profileStep db limit)
        { byChannelId := [], byChannelName := [] } := rfl
  have hbyName :
      dictGet (buildStyleProfiles db limit none).byChannelName c.name =
        profileEntry db limit c := by
    rw [hcache]
    exact foldl_profileStep_byName_lookup db limit db.channels _ c hc hnames
      rfl
  constructor
  · intro hlt
    have hentry : profileEntry db limit c = none := by
      unfold profileEntry
      rw [if_pos hlt]
    constructor
    · rw [hbyName, hentry]
    · intro tid htid
      rw [hcache]
      rw [foldl_profileStep_byId_lookup db limit db.channels
        { byChannelId := [], byChannelName := [] } c tid hc htid hids rfl]
      exact hentry
  · intro heq
    have hnlt : ¬(fetchRecentTexts db c.id limit).length <
        max 10 (limit / 3) := by omega
    refine ⟨?_, ?_, ?_⟩
    · intro p hp
      exact buildStyleProfile_sampleSize _ p hp
    · intro hne
      rw [hbyName]
      unfold profileEntry
      rw [if_neg hnlt]
      rcases hbp : buildStyleProfile (fetchRecentTexts db c.id limit)
        with _ | p
      · rw [(buildStyleProfile_eq_none_iff _).1 hbp] at hne
        cases hne
      · rw [if_neg (formatStyleProfile_some_ne p)]
    · intro he
      rw [hbyName]
      unfold profileEntry
      rw [if_neg hnlt]
      rw [(buildStyleProfile_eq_none_iff _).2 he]
      simp [formatStyleProfile]

/-- Witness for the amended C7 at a concrete input: the ten-post store at
the threshold boundary receives a profile entry under its channel name. -/
theorem c7_style_threshold_amended_witness :
    (ChannelRow.mk 1 "chan" (some 5) 0) ∈ c7db.channels
    ∧ (c7db.channels.map ChannelRow.name).Nodup
    ∧ (c7db.channels.filterMap ChannelRow.telegramId).Nodup
    ∧ (fetchRecentTexts c7db 1 30).length = max 10 (30 / 3)
    ∧ ((fetchRecentTexts c7db 1 30).filter nonBlank).isEmpty = false
    ∧ dictGet (buildStyleProfiles c7db 30 none).byChannelName "chan" =
        some (formatStyleProfile
          (buildStyleProfile (fetchRecentTexts c7db 1 30))) :=
  ⟨by decide, by decide, by decide, by decide, by decide,
    ((c7_style_threshold_amended c7db 30 (ChannelRow.mk 1 "chan" (some 5) 0)
        (by decide) (by decide) (by decide)).2 (by decide)).2.1 (by decide)⟩

end Cannibal.Style
